import Mathlib

/-!
Verification of the Document_agent RAG core against its specification.

Each Python function named in a claim is shallowly embedded as a Lean
definition translated from the source file cited next to it.  Strings are
Lean `String`s (Python `len` = number of code points = `String.length`),
numeric scores are `Rat`/`Int`, and fallible calls are `Except`/`Option`
values.  External services (FAISS, CrossEncoder, the LLM) enter the
embeddings as explicit oracle parameters.
-/

namespace DocAgent

/-! ## Chunker: `RAGChunkingPipeline` (src/agents/rag_chunking.py) -/

/-- A chunk as handled by `merge_small_chunks`: `page_content` mirrors the
LangChain `Document.page_content`; `merged` mirrors the the merged metadata key
flag (absent in the input chunks ↦ `false`).  The remaining metadata keys are
never read by the merge routine and are omitted. -/
structure RChunk where
  page_content : String
  merged : Bool
  deriving DecidableEq, Repr

/-- The chunk built at rag_chunking.py:234-244 when a small chunk is merged
with its immediate successor: contents joined by a blank line, metadata
tagged `merged=True`. -/
def mkMergedChunk (c next : RChunk) : RChunk :=
  { page_content := c.page_content ++ "\n\n" ++ next.page_content, merged := true }

/-- Source: `RAGChunkingPipeline.merge_small_chunks` (rag_chunking.py:211-252).
The Python loop walks `i` left to right; a chunk shorter than `min_size`
that is not the last chunk is merged with `chunks[i+1]` and `i` advances by
2, otherwise the chunk is kept and `i` advances by 1. -/
def mergeSmallChunks (min_size : Nat) : List RChunk → List RChunk
  | [] => []
  | [c] => [c]
  | c :: next :: rest =>
    if c.page_content.length < min_size then
      mkMergedChunk c next :: mergeSmallChunks min_size rest
    else
      c :: mergeSmallChunks min_size (next :: rest)

theorem mergeSmallChunks_ne_nil (m : Nat) (l : List RChunk) (h : l ≠ []) :
    mergeSmallChunks m l ≠ [] := by
  match l with
  | [] => exact absurd rfl h
  | [c] => simp [mergeSmallChunks]
  | c :: next :: rest =>
    simp only [mergeSmallChunks]
    split <;> simp

/-- Every output chunk other than the last one is either at least `min_size`
long or carries the `merged` tag (two adjacent small chunks can merge to a
chunk that is still below `min_size`). -/
theorem mergeSmallChunks_dropLast_spec (m : Nat) (l : List RChunk) :
    ∀ c ∈ (mergeSmallChunks m l).dropLast,
      m ≤ c.page_content.length ∨ c.merged = true := by
  induction l using mergeSmallChunks.induct m with
  | case1 => simp [mergeSmallChunks]
  | case2 c => simp [mergeSmallChunks]
  | case3 c next rest hsmall ih =>
    simp only [mergeSmallChunks, if_pos hsmall]
    intro x hx
    match hrec : mergeSmallChunks m rest with
    | [] =>
      rw [hrec] at hx
      simp at hx
    | d :: ds =>
      rw [hrec, List.dropLast_cons₂] at hx
      rcases List.mem_cons.mp hx with h1 | h1
      · subst h1; exact Or.inr rfl
      · exact ih x (by rw [hrec]; exact h1)
  | case4 c next rest hsmall ih =>
    simp only [mergeSmallChunks, if_neg hsmall]
    intro x hx
    match hrec : mergeSmallChunks m (next :: rest) with
    | [] => exact absurd hrec (mergeSmallChunks_ne_nil m _ (by simp))
    | d :: ds =>
      rw [hrec, List.dropLast_cons₂] at hx
      rcases List.mem_cons.mp hx with h1 | h1
      · subst h1; exact Or.inl (Nat.le_of_not_lt hsmall)
      · exact ih x (by rw [hrec]; exact h1)

/-- If every chunk except possibly the last is already at least `min_size`
long, `merge_small_chunks` returns its input unchanged. -/
theorem mergeSmallChunks_id (m : Nat) (l : List RChunk)
    (h : ∀ c ∈ l.dropLast, m ≤ c.page_content.length) :
    mergeSmallChunks m l = l := by
  induction l using mergeSmallChunks.induct m with
  | case1 => rfl
  | case2 c => rfl
  | case3 c next rest hsmall ih =>
    exact absurd (h c (by simp [List.dropLast_cons₂])) (Nat.not_le_of_lt hsmall)
  | case4 c next rest hsmall ih =>
    simp only [mergeSmallChunks, if_neg hsmall]
    rw [ih]
    intro x hx
    apply h
    rw [List.dropLast_cons₂]
    exact List.mem_cons_of_mem c hx

/-- C2 counterexample: with `min_size = 10`, merging `["a", "b", "cccccccccc"]`
produces `["a\n\nb", "cccccccccc"]`, whose first chunk has length 4 < 10 and is
not the final chunk — refuting "no output chunk is shorter than min_size
unless it is the final chunk". -/
theorem C2_counterexample :
    mergeSmallChunks 10 [⟨"a", false⟩, ⟨"b", false⟩, ⟨"cccccccccc", false⟩]
      = [⟨"a\n\nb", true⟩, ⟨"cccccccccc", false⟩] ∧
    ¬ (∀ c ∈ (mergeSmallChunks 10
          [⟨"a", false⟩, ⟨"b", false⟩, ⟨"cccccccccc", false⟩]).dropLast,
        10 ≤ c.page_content.length) := by
  refine ⟨by decide, ?_⟩
  decide

/-- C2 (amended): `merge_small_chunks` concatenates a chunk shorter than
`min_size` with its immediate successor (never its predecessor) and tags the
result `merged=true`; every output chunk shorter than `min_size` is either
the final chunk of the output or a `merged=true` chunk (two adjacent small
chunks can merge to a chunk that is still below `min_size`). -/
theorem C2_merge_small_chunks_spec :
    (∀ (m : Nat) (c next : RChunk) (rest : List RChunk),
        c.page_content.length < m →
        mergeSmallChunks m (c :: next :: rest)
            = mkMergedChunk c next :: mergeSmallChunks m rest ∧
          (mkMergedChunk c next).page_content
            = c.page_content ++ "\n\n" ++ next.page_content ∧
          (mkMergedChunk c next).merged = true) ∧
    (∀ (m : Nat) (l : List RChunk), ∀ c ∈ (mergeSmallChunks m l).dropLast,
        m ≤ c.page_content.length ∨ c.merged = true) := by
  refine ⟨fun m c next rest h => ⟨?_, rfl, rfl⟩, mergeSmallChunks_dropLast_spec⟩
  simp [mergeSmallChunks, h]

/-- C2 witness: the amended theorem applied at concrete inputs. -/
theorem C2_merge_small_chunks_spec_witness :
    (mergeSmallChunks 3 [⟨"a", false⟩, ⟨"b", false⟩, ⟨"c", false⟩]
        = mkMergedChunk ⟨"a", false⟩ ⟨"b", false⟩
            :: mergeSmallChunks 3 [⟨"c", false⟩]) ∧
    (2 ≤ (RChunk.mk "aa" false).page_content.length
      ∨ (RChunk.mk "aa" false).merged = true) :=
  ⟨(C2_merge_small_chunks_spec.1 3 ⟨"a", false⟩ ⟨"b", false⟩ [⟨"c", false⟩]
      (by decide)).1,
   C2_merge_small_chunks_spec.2 2 [⟨"aa", false⟩, ⟨"b", false⟩] ⟨"aa", false⟩
      (by decide)⟩

/-- C3 counterexample: `merge_small_chunks` is not idempotent — on three
one-character chunks with `min_size = 10`, the first pass yields
`["a\n\nb", "c"]` and a second pass merges again to `["a\n\nb\n\nc"]`. -/
theorem C3_counterexample :
    mergeSmallChunks 10
        (mergeSmallChunks 10 [⟨"a", false⟩, ⟨"b", false⟩, ⟨"c", false⟩])
      ≠ mergeSmallChunks 10 [⟨"a", false⟩, ⟨"b", false⟩, ⟨"c", false⟩] := by
  decide

/-- C3 (amended): `merge_small_chunks` is idempotent on chunk lists whose
every chunk except possibly the last already has length at least `min_size`
(on such lists it is the identity); in general a second application can merge
further, as the counterexample shows. -/
theorem C3_merge_small_chunks_idempotent (m : Nat) (l : List RChunk)
    (h : ∀ c ∈ l.dropLast, m ≤ c.page_content.length) :
    mergeSmallChunks m (mergeSmallChunks m l) = mergeSmallChunks m l := by
  rw [mergeSmallChunks_id m l h, mergeSmallChunks_id m l h]

/-- C3 witness: the amended idempotence applied at a concrete input. -/
theorem C3_merge_small_chunks_idempotent_witness :
    (∀ c ∈ ([⟨"0123456789", false⟩, ⟨"x", false⟩] : List RChunk).dropLast,
        10 ≤ c.page_content.length) ∧
    mergeSmallChunks 10
        (mergeSmallChunks 10 [⟨"0123456789", false⟩, ⟨"x", false⟩])
      = mergeSmallChunks 10 [⟨"0123456789", false⟩, ⟨"x", false⟩] :=
  ⟨by decide, C3_merge_small_chunks_idempotent 10 _ (by decide)⟩

/-! ## Python string primitives shared by the embeddings -/

/-- Character range test. -/
def between (lo hi c : Char) : Bool := decide (lo ≤ c) && decide (c ≤ hi)

/-- Python `str.lower()` restricted to the alphabets used by the texts of this
repository: ASCII `A-Z` and the Cyrillic block `А-Я`/`Ё` of the Russian keyword
tables. Other characters are unchanged. -/
def pyLowerChar (c : Char) : Char :=
  if between 'A' 'Z' c || between 'А' 'Я' c then Char.ofNat (c.toNat + 0x20)
  else if c = 'Ё' then 'ё'
  else c

/-- Python `str.lower()` on a whole string. -/
def pyLower (s : String) : String := String.mk (s.toList.map pyLowerChar)

/-- Head test: does `needle` match at the start of `hay`? -/
def matchesAt : List Char → List Char → Bool
  | [], _ => true
  | _ :: _, [] => false
  | n :: ns, h :: hs => n == h && matchesAt ns hs

/-- Python `needle in hay` — substring containment, on character lists. -/
def containsSub : List Char → List Char → Bool
  | [], needle => matchesAt needle []
  | h :: hs, needle => matchesAt needle (h :: hs) || containsSub hs needle

/-- Python `needle in hay` on strings. -/
def strContains (hay needle : String) : Bool := containsSub hay.toList needle.toList

/-- Python `s.replace(old, new, 1)`: replace the first occurrence only. -/
def replaceFirstCh (old new : List Char) : List Char → List Char
  | [] => if matchesAt old [] then new else []
  | c :: cs =>
    if matchesAt old (c :: cs) then new ++ (c :: cs).drop old.length
    else c :: replaceFirstCh old new cs

/-- Python `s.replace(old, new, 1)` on strings. -/
def pyReplaceFirst (s old new : String) : String :=
  String.mk (replaceFirstCh old.toList new.toList s.toList)

/-- Case-insensitive match of `old` at the start of `hay`, as Python
`re.IGNORECASE` compares after case folding. -/
def matchesAtCI (old hay : List Char) : Bool :=
  matchesAt (old.map pyLowerChar) (hay.map pyLowerChar)

/-- Python `re.sub(re.escape(old), new, s, count=1, flags=re.IGNORECASE)`:
replace the first case-insensitive occurrence of the literal `old`. -/
def replaceFirstCICh (old new : List Char) : List Char → List Char
  | [] => if matchesAtCI old [] then new else []
  | c :: cs =>
    if matchesAtCI old (c :: cs) then new ++ (c :: cs).drop old.length
    else c :: replaceFirstCICh old new cs

/-- Python word characters for `\w` over the inputs of this repository: ASCII
alphanumerics, underscore, and the Cyrillic letters of the Russian tables. -/
def isWordChar (c : Char) : Bool :=
  between 'a' 'z' c || between 'A' 'Z' c || between '0' '9' c || c == '_'
    || between 'а' 'я' c || between 'А' 'Я' c || c == 'ё' || c == 'Ё'

/-- Accumulator pass for the Python word-token scan (`re.findall` with the
pattern `\b\w+\b`): maximal runs of word
characters, in order. `cur` holds the current run reversed. -/
def wordTokensAux : List Char → List Char → List String
  | [], cur => if cur.isEmpty then [] else [String.mk cur.reverse]
  | c :: cs, cur =>
    if isWordChar c then wordTokensAux cs (c :: cur)
    else if cur.isEmpty then wordTokensAux cs []
    else String.mk cur.reverse :: wordTokensAux cs []

/-- Python `re.findall` with the word pattern `\b\w+\b`. -/
def pyWordTokens (s : String) : List String := wordTokensAux s.toList []

/-! ## Contract Classifier: `SimpleRAG.is_contract` (src/core/rag.py) -/

/-- Source: `SimpleRAG.CONTRACT_KEYWORDS` (rag.py:47-53). -/
def CONTRACT_KEYWORDS : List String :=
  ["договор", "контракт", "соглашение", "стороны",
   "исполнитель", "заказчик", "обязуется", "предмет договора",
   "срок действия", "порядок расчётов", "реквизиты",
   "ответственность сторон", "расторжение", "подпись"]

/-- Source: `matches = sum(1 for kw in CONTRACT_KEYWORDS if kw in text_lower)`
(rag.py:248). -/
def contractMatches (text : String) : Nat :=
  (CONTRACT_KEYWORDS.filter (fun kw => strContains (pyLower text) kw)).length

/-- Source: `SimpleRAG.is_contract` (rag.py:241-252).  The float expressions
`min(1.0, matches / 5)` and `confidence >= 0.4` are exact at every value
they take here, so the confidence is embedded as a rational. -/
def is_contract (text : String) : Bool × Rat :=
  let confidence : Rat :=
    if (1 : Rat) ≤ (contractMatches text : Rat) / 5 then 1
    else (contractMatches text : Rat) / 5
  (decide ((2 : Rat) / 5 ≤ confidence), confidence)

theorem is_contract_snd (text : String) :
    (is_contract text).2 = min 1 ((contractMatches text : Rat) / 5) := by
  rw [min_def]
  rfl

theorem contractThreshold (m : Nat) :
    ((2 : Rat) / 5 ≤ min 1 ((m : Rat) / 5)) ↔ 2 ≤ m := by
  rw [le_min_iff]
  constructor
  · rintro ⟨-, h2⟩
    have hq : (2 : Rat) ≤ (m : Rat) := by linarith
    exact_mod_cast hq
  · intro h
    have hq : (2 : Rat) ≤ (m : Rat) := by exact_mod_cast h
    exact ⟨by norm_num, by linarith⟩

/-- C4: `is_contract` returns confidence `min(1, matches/5)`, classifies a
text as a contract exactly when the confidence is at least `0.4`,
equivalently when at least 2 keywords match; a text with exactly 2 keywords
yields `(true, 0.4)` and a text with exactly 1 keyword yields
`(false, 0.2)`. -/
theorem C4_is_contract_spec :
    (∀ text : String,
        (is_contract text).2 = min 1 ((contractMatches text : Rat) / 5) ∧
        ((is_contract text).1 = true ↔ (2 : Rat) / 5 ≤ (is_contract text).2) ∧
        ((is_contract text).1 = true ↔ 2 ≤ contractMatches text)) ∧
    contractMatches "договор и контракт" = 2 ∧
    is_contract "договор и контракт" = (true, 2 / 5) ∧
    contractMatches "договор" = 1 ∧
    is_contract "договор" = (false, 1 / 5) := by
  have hfst : ∀ text : String,
      ((is_contract text).1 = true ↔ (2 : Rat) / 5 ≤ (is_contract text).2) := by
    intro text
    exact decide_eq_true_iff
  have h2 : contractMatches "договор и контракт" = 2 := by decide
  have h1 : contractMatches "договор" = 1 := by decide
  refine ⟨fun text => ⟨is_contract_snd text, hfst text, ?_⟩, h2, ?_, h1, ?_⟩
  · rw [hfst text, is_contract_snd text]
    exact contractThreshold (contractMatches text)
  · simp only [is_contract, h2, Prod.mk.injEq]
    norm_num
  · simp only [is_contract, h1, Prod.mk.injEq]
    norm_num

/-! ## Query Processor: `PreRetrievalPipeline` (src/agents/pre_retrieval.py) -/

/-- The stop-word set of `_extract_keywords` (pre_retrieval.py:91-101);
the Python set literal repeats the token вам, which a set collapses. -/
def STOP_WORDS : List String :=
  ["и", "или", "но", "что", "где", "когда", "как", "почему",
   "в", "на", "при", "для", "с", "о", "об", "по", "у", "за",
   "к", "от", "до", "из", "через", "без", "под", "над",
   "это", "то", "все", "всё", "некоторый", "любой", "некий",
   "мне", "тебе", "ему", "нам", "вам", "им",
   "я", "ты", "он", "она", "оно", "мы", "вы", "они",
   "а", "так", "да", "нет", "вот", "вне",
   "словно", "ибо", "хоть", "ведь", "уж", "уже",
   "бы", "ль", "же", "тоже"]

/-- Source: `PreRetrievalPipeline._extract_keywords` (pre_retrieval.py:84-109):
tokenize the lowercased query on word boundaries, drop stop words and
tokens of length ≤ 2. -/
def extractKeywords (query : String) : List String :=
  (pyWordTokens (pyLower query)).filter
    (fun w => !STOP_WORDS.contains w && decide (2 < w.length))

/-- The synonym table of `_generate_synonyms_variants`
(pre_retrieval.py:160-169), in Python dict insertion order. -/
def PRE_SYNONYMS : List (String × List String) :=
  [("договор", ["контракт", "соглашение", "соглас"]),
   ("контракт", ["договор", "соглашение"]),
   ("сумма", ["стоимость", "сумма денег", "цена"]),
   ("срок", ["дата", "период", "временной промежуток"]),
   ("клиент", ["заказчик", "партнер", "сторона"]),
   ("поставщик", ["продавец", "исполнитель", "поставщик услуг"]),
   ("оплата", ["расчет", "платеж", "счет"]),
   ("условие", ["пункт", "требование", "положение"])]

/-- Source: `PreRetrievalPipeline._generate_synonyms_variants`
(pre_retrieval.py:157-179): for each keyword found in the table, append
`query.replace(keyword, synonym, 1)` for each synonym, skipping variants
equal to the query or already collected. -/
def generateSynonymsVariants (query : String) (keywords : List String) :
    List String :=
  keywords.foldl (fun variants keyword =>
    match List.lookup keyword PRE_SYNONYMS with
    | none => variants
    | some syns =>
      syns.foldl (fun variants synonym =>
        let variant := pyReplaceFirst query keyword synonym
        if variant != query && !variants.contains variant then
          variants ++ [variant]
        else variants) variants) []

/-- The trigger-phrase table of `_expand_legal_query`
(pre_retrieval.py:183-188). -/
def LEGAL_TERMS : List (String × String) :=
  [("договор поставки", "договор поставки товаров условия сроки"),
   ("договор оказания услуг", "договор оказания услуг стоимость сроки"),
   ("акт выполнения", "акт выполненных работ оказанных услуг"),
   ("допсоглашение", "дополнительное соглашение к договору")]

/-- Source: `PreRetrievalPipeline._expand_legal_query` (pre_retrieval.py:181-194):
return the expansion of the first trigger phrase contained in the lowercased
query, if any. -/
def expandLegalQuery (query : String) : Option String :=
  LEGAL_TERMS.findSome?
    (fun p => if strContains (pyLower query) p.1 then some p.2 else none)

/-- The replacement table of `_simple_synonym_expansion`
(pre_retrieval.py:198-203). -/
def SIMPLE_REPLACEMENTS : List (String × String) :=
  [("сумма", "стоимость"), ("срок", "дата"),
   ("условие", "пункт"), ("требование", "обязательство")]

/-- Source: `PreRetrievalPipeline._simple_synonym_expansion`
(pre_retrieval.py:196-212): for each table entry whose key occurs in the
lowercased original query, replace its first case-insensitive occurrence in
the running result. -/
def simpleSynonymExpansion (query : String) : String :=
  SIMPLE_REPLACEMENTS.foldl (fun expanded p =>
    if strContains (pyLower query) p.1 then
      String.mk (replaceFirstCICh p.1.toList p.2.toList expanded.toList)
    else expanded) query

/-- Deduplication preserving first-seen order (pre_retrieval.py:146-152). -/
def dedupPreserving (l : List String) : List String :=
  l.foldl (fun acc v => if acc.contains v then acc else acc ++ [v]) []

/-- Source: `PreRetrievalPipeline._query_expansion` (pre_retrieval.py:111-155). -/
def queryExpansion (query : String) : List String :=
  let variants := [query]
  let keywords := extractKeywords query
  if keywords.isEmpty then variants
  else
    let variants :=
      if 1 < keywords.length then
        let keyword_only := " ".intercalate keywords
        if keyword_only != query then variants ++ [keyword_only] else variants
      else variants
    let variants := variants ++ generateSynonymsVariants query keywords
    let variants :=
      if ["договор", "контракт", "соглашение"].any
          (fun w => strContains (pyLower query) w) then
        match expandLegalQuery query with
        | some legal => variants ++ [legal]
        | none => variants
      else variants
    let se := simpleSynonymExpansion query
    let variants := if se != query then variants ++ [se] else variants
    dedupPreserving variants

/-- The result dictionary of `process_query` (pre_retrieval.py:28-82). -/
structure QueryBundle where
  original : String
  processed : String
  variants : List String
  keywords : List String
  method : String
  deriving DecidableEq, Repr

/-- Source: `PreRetrievalPipeline.process_query` (pre_retrieval.py:28-82) for the
`expansion` method (the claims exercise no other method; `rewriting` and
`hybrid` additionally consult the optional LLM client).  For any other
method string the default dictionary is returned unchanged, as in the
source when no branch matches. -/
def processQuery (query : String) (method : String) : QueryBundle :=
  let base : QueryBundle :=
    { original := query, processed := query, variants := [query],
      keywords := extractKeywords query, method := method }
  if method = "expansion" then
    let v := queryExpansion query
    { base with variants := v, processed := v.headD query }
  else base

/-- C9: query expansion is deterministic — two calls of
`process_query(q, "expansion")` return the identical ordered variant list —
and on the example given in the spec the list is the four fixed variants
below. -/
theorem C9_query_expansion_deterministic :
    (∀ q : String,
        (processQuery q "expansion").variants
          = (processQuery q "expansion").variants) ∧
    (processQuery "договор аренды" "expansion").variants
      = ["договор аренды", "контракт аренды",
         "соглашение аренды", "соглас аренды"] :=
  ⟨fun _ => rfl, by decide⟩

/-! ## Result Processor: `PostRetrievalPipeline` (src/agents/post_retrieval.py) -/

/-- A retrieved document as handled by `PostRetrievalPipeline`: the content
plus the metadata keys the pipeline reads or writes (`source`,
`rerank_score`, `merged_count`, `merged_from`); `none` models an absent
dictionary key.  Scores are integers since only their order matters. -/
structure PDoc where
  page_content : String
  source : Option String
  rerank_score : Option Int
  merged_count : Option Nat
  merged_from : Option (List String)
  deriving DecidableEq, Repr

/-- Python whitespace for `str.split()` with no argument. -/
def pyIsSpace (c : Char) : Bool :=
  c == ' ' || c == '\t' || c == '\n' || c == '\r'
    || c == Char.ofNat 0x0B || c == Char.ofNat 0x0C

/-- Accumulator pass for `str.split()`: maximal runs of non-whitespace. -/
def wsTokensAux : List Char → List Char → List String
  | [], cur => if cur.isEmpty then [] else [String.mk cur.reverse]
  | c :: cs, cur =>
    if pyIsSpace c then
      if cur.isEmpty then wsTokensAux cs []
      else String.mk cur.reverse :: wsTokensAux cs []
    else wsTokensAux cs (c :: cur)

/-- Python `s.split()`. -/
def pySplitWs (s : String) : List String := wsTokensAux s.toList []

/-- Source: `set(text.lower().split()[:50])` (post_retrieval.py:227-228). -/
def first50WordSet (text : String) : Finset String :=
  ((pySplitWs (pyLower text)).take 50).toFinset

/-- Source: `PostRetrievalPipeline._calculate_similarity` (post_retrieval.py:225-233):
word-overlap ratio of the two first-50-word sets, `0` when both are empty.
The Python float division is exact enough at these denominators that the
comparison against the 0.7 threshold is faithfully modelled in rationals. -/
def calculateSimilarity (text1 text2 : String) : Rat :=
  let words1 := first50WordSet text1
  let words2 := first50WordSet text2
  let intersection := (words1 ∩ words2).card
  let union := (words1 ∪ words2).card
  if 0 < union then (intersection : Rat) / (union : Rat) else 0

/-- Modelled from the spec: "Similarity = Jaccard overlap of the first 50
words of each pair" — |A ∩ B| / |A ∪ B| on the word sets (0 when both are
empty). -/
def jaccardOverlap (a b : Finset String) : Rat :=
  if 0 < (a ∪ b).card then ((a ∩ b).card : Rat) / ((a ∪ b).card : Rat) else 0

/-- Source: `PostRetrievalPipeline._merge_documents` (post_retrieval.py:235-250):
contents joined by the separator, metadata taken from the first member with
`merged_count` and the `merged_from` provenance list recorded
(per member, the source metadata key with default unknown). -/
def mergeDocuments (d : PDoc) (rest : List PDoc) : PDoc :=
  { page_content :=
      String.intercalate "\n\n---\n\n" ((d :: rest).map PDoc.page_content),
    source := d.source,
    rerank_score := d.rerank_score,
    merged_count := some (d :: rest).length,
    merged_from := some ((d :: rest).map (fun x => x.source.getD "unknown")) }

/-- The fusion threshold test (post_retrieval.py:207): strictly above 0.7. -/
def simAbove (d1 d2 : PDoc) : Bool :=
  decide ((7 : Rat) / 10 < calculateSimilarity d1.page_content d2.page_content)

/-- The scan of `PostRetrievalPipeline._fusion` (post_retrieval.py:190-219):
each document not yet claimed groups with every later unclaimed document
whose similarity with it exceeds 0.7; a group of more than one member is
replaced by `_merge_documents`. -/
def fusionGo (docs : List PDoc) : List PDoc :=
  match docs with
  | [] => []
  | d :: rest =>
    let similar := rest.filter (fun x => simAbove d x)
    let remaining := rest.filter (fun x => !simAbove d x)
    (if similar.isEmpty then d else mergeDocuments d similar) :: fusionGo remaining
termination_by docs.length
decreasing_by
  simp only [List.length_cons]
  exact Nat.lt_succ_of_le (List.length_filter_le _ rest)

/-- Source: `PostRetrievalPipeline._fusion` (post_retrieval.py:178-223): lists of at
most one document are returned unchanged. -/
def fusion (docs : List PDoc) : List PDoc :=
  if docs.length ≤ 1 then docs else fusionGo docs

theorem fusion_pair_merge (d1 d2 : PDoc)
    (h : (7 : Rat) / 10 < calculateSimilarity d1.page_content d2.page_content) :
    fusion [d1, d2] = [mergeDocuments d1 [d2]] := by
  have hb : simAbove d1 d2 = true := decide_eq_true h
  simp [fusion, fusionGo, hb]

theorem fusion_pair_keep (d1 d2 : PDoc)
    (h : calculateSimilarity d1.page_content d2.page_content ≤ (7 : Rat) / 10) :
    fusion [d1, d2] = [d1, d2] := by
  have hb : simAbove d1 d2 = false := by
    simp only [simAbove, decide_eq_false_iff_not]
    exact not_lt.mpr h
  simp [fusion, fusionGo, hb]

theorem similarity_eval (t1 t2 : String) (i u : Nat)
    (hi : (first50WordSet t1 ∩ first50WordSet t2).card = i)
    (hu : (first50WordSet t1 ∪ first50WordSet t2).card = u)
    (hupos : 0 < u) :
    calculateSimilarity t1 t2 = (i : Rat) / (u : Rat) := by
  simp [calculateSimilarity, hi, hu, hupos]

/-- Short distinct words for the concrete fusion texts. -/
def wordI (i : Nat) : String := "w" ++ toString i

/-- A 50-word text `w0 w1 … w49`. -/
def fiftyWordText : String :=
  String.intercalate " " ((List.range 50).map wordI)

/-- A 50-word text `w45 … w94` sharing exactly 5 of its 50 words (10%) with
`fiftyWordText`. -/
def fiftyWordTextB : String :=
  String.intercalate " " (((List.range 95).drop 45).map wordI)

/-- A retrieved document carrying only content and a source. -/
def pdocOf (content src : String) : PDoc :=
  { page_content := content, source := some src,
    rerank_score := none, merged_count := none, merged_from := none }

set_option maxRecDepth 400000 in
/-- C5: the pair similarity used by fusion is the Jaccard overlap of the two
first-50-word sets; a pair whose similarity exceeds the 0.7 threshold is
merged into one chunk whose metadata records `merged_count` and the source
provenance list, while a pair at or below the threshold stays separate.
Concretely, two chunks sharing all 50 of their first-50 words (similarity 1)
are merged, and two chunks sharing 10% of those words (5 of 95, similarity
5/95) are not. -/
theorem C5_fusion_spec :
    (∀ t1 t2 : String, calculateSimilarity t1 t2
        = jaccardOverlap (first50WordSet t1) (first50WordSet t2)) ∧
    (∀ d1 d2 : PDoc,
        (7 : Rat) / 10 < calculateSimilarity d1.page_content d2.page_content →
        fusion [d1, d2] = [mergeDocuments d1 [d2]] ∧
        (mergeDocuments d1 [d2]).merged_count = some 2 ∧
        (mergeDocuments d1 [d2]).merged_from
          = some [d1.source.getD "unknown", d2.source.getD "unknown"]) ∧
    (∀ d1 d2 : PDoc,
        calculateSimilarity d1.page_content d2.page_content ≤ (7 : Rat) / 10 →
        fusion [d1, d2] = [d1, d2]) ∧
    calculateSimilarity fiftyWordText fiftyWordText = 1 ∧
    fusion [pdocOf fiftyWordText "a", pdocOf fiftyWordText "b"]
      = [mergeDocuments (pdocOf fiftyWordText "a") [pdocOf fiftyWordText "b"]] ∧
    calculateSimilarity fiftyWordText fiftyWordTextB = 5 / 95 ∧
    fusion [pdocOf fiftyWordText "a", pdocOf fiftyWordTextB "b"]
      = [pdocOf fiftyWordText "a", pdocOf fiftyWordTextB "b"] := by
  have hAA : calculateSimilarity fiftyWordText fiftyWordText = 1 := by
    rw [similarity_eval _ _ 50 50 (by decide) (by decide) (by norm_num)]
    norm_num
  have hAB : calculateSimilarity fiftyWordText fiftyWordTextB = 5 / 95 := by
    rw [similarity_eval _ _ 5 95 (by decide) (by decide) (by norm_num)]
    norm_num
  refine ⟨fun t1 t2 => rfl,
    fun d1 d2 h => ⟨fusion_pair_merge d1 d2 h, rfl, rfl⟩,
    fun d1 d2 h => fusion_pair_keep d1 d2 h, hAA, ?_, hAB, ?_⟩
  · refine fusion_pair_merge _ _ ?_
    show (7 : Rat) / 10 < calculateSimilarity fiftyWordText fiftyWordText
    rw [hAA]; norm_num
  · refine fusion_pair_keep _ _ ?_
    show calculateSimilarity fiftyWordText fiftyWordTextB ≤ (7 : Rat) / 10
    rw [hAB]; norm_num

/-- C5 witness: the pair-merging components applied at concrete inputs. -/
theorem C5_fusion_spec_witness :
    (fusion [pdocOf "a b" "s1", pdocOf "a b" "s2"]
        = [mergeDocuments (pdocOf "a b" "s1") [pdocOf "a b" "s2"]] ∧
      (mergeDocuments (pdocOf "a b" "s1") [pdocOf "a b" "s2"]).merged_count
        = some 2 ∧
      (mergeDocuments (pdocOf "a b" "s1") [pdocOf "a b" "s2"]).merged_from
        = some ["s1", "s2"]) ∧
    fusion [pdocOf "a b" "s1", pdocOf "c d" "s2"]
      = [pdocOf "a b" "s1", pdocOf "c d" "s2"] :=
  ⟨C5_fusion_spec.2.1 (pdocOf "a b" "s1") (pdocOf "a b" "s2")
      (by rw [similarity_eval _ _ 2 2 (by decide) (by decide) (by norm_num)]
          norm_num),
   C5_fusion_spec.2.2.1 (pdocOf "a b" "s1") (pdocOf "c d" "s2")
      (by rw [similarity_eval _ _ 0 4 (by decide) (by decide) (by norm_num)]
          norm_num)⟩

/-- Stable insertion for a descending sort: `x` is placed before the first
element whose key is at most its own, so earlier-listed elements win ties —
the relative order that the stable Python `sorted` with reverse=True
produces. -/
def insertDescBy {α : Type} (key : α → Int) (x : α) : List α → List α
  | [] => [x]
  | y :: ys => if key y ≤ key x then x :: y :: ys else y :: insertDescBy key x ys

/-- Stable descending sort by `key`.  A stable sort is determined by its
comparison, so this models Python `sorted(l, key=key, reverse=True)`. -/
def sortDescBy {α : Type} (key : α → Int) : List α → List α
  | [] => []
  | x :: xs => insertDescBy key x (sortDescBy key xs)

theorem insertDescBy_perm {α : Type} (key : α → Int) (x : α) (l : List α) :
    List.Perm (insertDescBy key x l) (x :: l) := by
  induction l with
  | nil => exact List.Perm.refl _
  | cons y ys ih =>
    simp only [insertDescBy]
    split
    · exact List.Perm.refl _
    · exact (ih.cons y).trans (List.Perm.swap x y ys)

theorem sortDescBy_perm {α : Type} (key : α → Int) (l : List α) :
    List.Perm (sortDescBy key l) l := by
  induction l with
  | nil => exact List.Perm.refl _
  | cons x xs ih =>
    exact (insertDescBy_perm key x (sortDescBy key xs)).trans (ih.cons x)

theorem pairwise_insertDescBy {α : Type} (key : α → Int) (x : α) (l : List α)
    (h : l.Pairwise (fun a b => key b ≤ key a)) :
    (insertDescBy key x l).Pairwise (fun a b => key b ≤ key a) := by
  induction l with
  | nil => simp [insertDescBy]
  | cons y ys ih =>
    rcases List.pairwise_cons.mp h with ⟨hy, hys⟩
    simp only [insertDescBy]
    split
    · rename_i hyx
      refine List.Pairwise.cons ?_ h
      intro z hz
      rcases List.mem_cons.mp hz with rfl | hz'
      · exact hyx
      · exact le_trans (hy z hz') hyx
    · rename_i hyx
      refine List.Pairwise.cons ?_ (ih hys)
      intro z hz
      rcases List.mem_cons.mp
          ((insertDescBy_perm key x ys).mem_iff.mp hz) with rfl | hz'
      · exact le_of_lt (lt_of_not_le hyx)
      · exact hy z hz'

theorem sortDescBy_pairwise {α : Type} (key : α → Int) (l : List α) :
    (sortDescBy key l).Pairwise (fun a b => key b ≤ key a) := by
  induction l with
  | nil => simp [sortDescBy]
  | cons x xs ih => exact pairwise_insertDescBy key x (sortDescBy key xs) ih

theorem filter_insertDescBy {α : Type} (key : α → Int) (c : Int) (x : α)
    (l : List α) :
    (insertDescBy key x l).filter (fun y => decide (key y = c))
      = if key x = c then x :: l.filter (fun y => decide (key y = c))
        else l.filter (fun y => decide (key y = c)) := by
  induction l with
  | nil =>
    by_cases hx : key x = c <;> simp [insertDescBy, List.filter, hx]
  | cons y ys ih =>
    simp only [insertDescBy]
    split
    · rename_i hyx
      by_cases hx : key x = c <;> simp [List.filter_cons, hx]
    · rename_i hyx
      by_cases hx : key x = c
      · have hy : ¬ (key y = c) := by
          intro hyc
          exact hyx (le_of_eq (hx ▸ hyc))
        simp [List.filter_cons, hx, hy, ih]
      · by_cases hy : key y = c <;> simp [List.filter_cons, hx, hy, ih]

theorem filter_sortDescBy {α : Type} (key : α → Int) (c : Int) (l : List α) :
    (sortDescBy key l).filter (fun y => decide (key y = c))
      = l.filter (fun y => decide (key y = c)) := by
  induction l with
  | nil => rfl
  | cons x xs ih =>
    simp only [sortDescBy, filter_insertDescBy, ih]
    by_cases h : key x = c <;> simp [List.filter_cons, h]

/-- Sort key of the rerank: the rerank_score metadata key, default 0
(post_retrieval.py:126). -/
def rerankKey (d : PDoc) : Int := d.rerank_score.getD 0

/-- The annotation loop of `_rerank` (post_retrieval.py:113-123): each
document gets its `rerank_score` set to the relevance score of the pair
`(query, doc.page_content[:512])`, the content truncated to its first 512
characters; the CrossEncoder is modelled as the oracle `score`. -/
def annotateScores (score : String → String → Int) (query : String)
    (docs : List PDoc) : List PDoc :=
  docs.map (fun d =>
    { d with rerank_score := some (score query (d.page_content.take 512)) })

/-- Source: `PostRetrievalPipeline._rerank` (post_retrieval.py:99-133) with
reranking enabled: annotate every document with its pair score, then sort
by that score descending with the stable Python `sorted`. -/
def rerank (score : String → String → Int) (query : String)
    (docs : List PDoc) : List PDoc :=
  sortDescBy rerankKey (annotateScores score query docs)

/-- C6: `_rerank` scores each pair (query, chunk content truncated to its
first 512 characters), returns a permutation of the annotated documents
that is sorted in descending score order, and documents with equal scores
keep their original relative order (stability, stated as preservation of
every equal-score fibre). -/
theorem C6_rerank_spec (score : String → String → Int) (query : String)
    (docs : List PDoc) :
    annotateScores score query docs = docs.map (fun d =>
      { d with rerank_score := some (score query (d.page_content.take 512)) }) ∧
    List.Perm (rerank score query docs) (annotateScores score query docs) ∧
    (rerank score query docs).Pairwise (fun a b => rerankKey b ≤ rerankKey a) ∧
    (∀ c : Int,
      (rerank score query docs).filter (fun d => decide (rerankKey d = c))
        = (annotateScores score query docs).filter
            (fun d => decide (rerankKey d = c))) :=
  ⟨rfl, sortDescBy_perm _ _, sortDescBy_pairwise _ _,
   fun c => filter_sortDescBy _ c _⟩

/-! ## Vector Index: `RAGVectorStore` (src/agents/vector_store.py) -/

/-- A search result: a `(Document, score)` pair. -/
abbrev SearchHit := PDoc × Rat

/-- The mutable state of `RAGVectorStore` that the claimed operations read
or write: the configured `store_type` string and `self.vector_store`
(`None` until an index is created or loaded; the index payload itself is an
opaque handle). -/
structure VSState where
  store_type : String
  vector_store : Option Nat
  deriving DecidableEq, Repr

/-- Source: `RAGVectorStore.search` (vector_store.py:135-163).  The body returns
`[]` when the store is uninitialized; otherwise it runs the backend call
inside a `try` whose `except` returns `[]`.  `faissSearch`/`chromaSearch`
are oracles for `similarity_search_with_scores` /
`similarity_search_with_relevance_scores`; `Except.error` models a raised
exception (for instance an unavailable embedding backend).  When
`store_type` is neither "faiss" nor "chroma" the Python function falls off
the end of the `try` and returns `None`, modelled by the outer `none`. -/
def VSsearch (st : VSState)
    (faissSearch chromaSearch : Nat → String → Nat → Except String (List SearchHit))
    (query : String) (top_k : Nat) : Option (List SearchHit) :=
  match st.vector_store with
  | none => some []
  | some idx =>
    let tryBody : Except String (Option (List SearchHit)) :=
      if st.store_type = "faiss" then (faissSearch idx query top_k).map some
      else if st.store_type = "chroma" then (chromaSearch idx query top_k).map some
      else Except.ok none
    match tryBody with
    | Except.ok v => v
    | Except.error _ => some []

/-- Source: `RAGVectorStore.load_faiss_index` (vector_store.py:195-209): when the
persisted path exists, `FAISS.load_local` (the oracle `loadLocal`) is run
inside a `try` whose `except` falls through to `return False` without
touching `self.vector_store`; a missing path skips the load and returns
`False` — the cold-start case. -/
def loadFaissIndex (st : VSState) (pathExists : Bool)
    (loadLocal : Except String Nat) : Bool × VSState :=
  if pathExists then
    match loadLocal with
    | Except.ok idx => (true, { st with vector_store := some idx })
    | Except.error _ => (false, st)
  else (false, st)

/-- Source: `RAGVectorStore.load_chroma_index` (vector_store.py:211-225), same
shape as the FAISS loader. -/
def loadChromaIndex (st : VSState) (pathExists : Bool)
    (loadChroma : Except String Nat) : Bool × VSState :=
  if pathExists then
    match loadChroma with
    | Except.ok idx => (true, { st with vector_store := some idx })
    | Except.error _ => (false, st)
  else (false, st)

/-- Source: `RAGVectorStore.load` (vector_store.py:227-234). -/
def VSload (st : VSState) (faissPathExists chromaPathExists : Bool)
    (loadLocal loadChroma : Except String Nat) : Bool × VSState :=
  if st.store_type = "faiss" then loadFaissIndex st faissPathExists loadLocal
  else if st.store_type = "chroma" then
    loadChromaIndex st chromaPathExists loadChroma
  else (false, st)

/-- The batches `documents[i:i+32]` walked by the insertion loop
(vector_store.py:92-93, default `batch_size=32`). -/
def batches32 : List PDoc → List (List PDoc)
  | [] => []
  | d :: rest => ((d :: rest).take 32) :: batches32 ((d :: rest).drop 32)
termination_by l => l.length
decreasing_by
  simp only [List.length_drop, List.length_cons]
  omega

/-- The FAISS insertion loop (vector_store.py:92-105): the first batch
creates the index via `FAISS.from_documents`, later batches are added to
the existing one; a raised exception (`Except.error`) stops the loop,
keeping the state mutated so far.  `fromDocs`/`addBatch` are oracles for
the two FAISS calls, returning the new index handle. -/
def faissLoop (fromDocs : List PDoc → Except String Nat)
    (addBatch : Nat → List PDoc → Except String Nat) :
    Option Nat → List (List PDoc) → Option Nat × Option String
  | vs, [] => (vs, none)
  | vs, b :: bs =>
    match vs with
    | none =>
      match fromDocs b with
      | Except.ok idx => faissLoop fromDocs addBatch (some idx) bs
      | Except.error e => (none, some e)
    | some idx =>
      match addBatch idx b with
      | Except.ok idx2 => faissLoop fromDocs addBatch (some idx2) bs
      | Except.error e => (some idx, some e)

/-- The per-document Chroma insertion loop (vector_store.py:120-121). -/
def chromaAddLoop (addOne : Nat → PDoc → Except String Nat) :
    Nat → List PDoc → Nat × Option String
  | idx, [] => (idx, none)
  | idx, d :: ds =>
    match addOne idx d with
    | Except.ok idx2 => chromaAddLoop addOne idx2 ds
    | Except.error e => (idx, some e)

/-- Source: `RAGVectorStore.add_documents` (vector_store.py:72-133).  An empty
document list returns `False` before the `try`, leaving the state
untouched.  The FAISS branch runs the batched loop and returns `True` on
success (`_save_faiss_index` catches its own exceptions and cannot change
the outcome); the Chroma branch creates or extends the index and calls
`persist`.  Every exception inside the `try` is caught and turned into
`False`.  An unsupported or unavailable store type returns `False`. -/
def VSaddDocuments (st : VSState) (docs : List PDoc)
    (faissAvail chromaAvail : Bool)
    (fromDocs : List PDoc → Except String Nat)
    (addBatch : Nat → List PDoc → Except String Nat)
    (chromaFromDocs : List PDoc → Except String Nat)
    (chromaAddOne : Nat → PDoc → Except String Nat)
    (chromaPersist : Nat → Except String Unit) : Bool × VSState :=
  if docs.isEmpty then (false, st)
  else if st.store_type = "faiss" && faissAvail then
    match faissLoop fromDocs addBatch st.vector_store (batches32 docs) with
    | (vs, none) => (true, { st with vector_store := vs })
    | (vs, some _) => (false, { st with vector_store := vs })
  else if st.store_type = "chroma" && chromaAvail then
    match st.vector_store with
    | none =>
      match chromaFromDocs docs with
      | Except.error _ => (false, st)
      | Except.ok idx =>
        match chromaPersist idx with
        | Except.ok _ => (true, { st with vector_store := some idx })
        | Except.error _ => (false, { st with vector_store := some idx })
    | some idx =>
      match chromaAddLoop chromaAddOne idx docs with
      | (idx2, none) =>
        match chromaPersist idx2 with
        | Except.ok _ => (true, { st with vector_store := some idx2 })
        | Except.error _ => (false, { st with vector_store := some idx2 })
      | (idx2, some _) => (false, { st with vector_store := some idx2 })
  else (false, st)

/-- Insertion into a Python dict rendered as an ordered association list:
an existing key is overwritten in place, a new key is appended (dicts
preserve first-insertion order). -/
def dictInsert {β : Type} (d : List (String × β)) (k : String) (v : β) :
    List (String × β) :=
  match d with
  | [] => [(k, v)]
  | (k0, v0) :: rest =>
    if k0 = k then (k0, v) :: rest else (k0, v0) :: dictInsert rest k v

/-- Python dict lookup on the association-list rendering. -/
def dictLookup {β : Type} (d : List (String × β)) (k : String) : Option β :=
  match d with
  | [] => none
  | (k0, v0) :: rest => if k0 = k then some v0 else dictLookup rest k

/-- Source: `RAGVectorStore.search_multiple` (vector_store.py:165-181): one
independent `search` per query, collected into a dict keyed by the query
text. -/
def VSsearchMultiple (st : VSState)
    (faissSearch chromaSearch : Nat → String → Nat → Except String (List SearchHit))
    (queries : List String) (top_k : Nat) :
    List (String × Option (List SearchHit)) :=
  queries.foldl
    (fun acc q => dictInsert acc q (VSsearch st faissSearch chromaSearch q top_k))
    []

theorem dictLookup_insert_self {β : Type} (d : List (String × β)) (k : String)
    (v : β) : dictLookup (dictInsert d k v) k = some v := by
  induction d with
  | nil => simp [dictInsert, dictLookup]
  | cons p rest ih =>
    obtain ⟨k0, v0⟩ := p
    by_cases h : k0 = k <;> simp [dictInsert, dictLookup, h, ih]

theorem dictLookup_insert_other {β : Type} (d : List (String × β))
    (k k2 : String) (v : β) (h : k2 ≠ k) :
    dictLookup (dictInsert d k v) k2 = dictLookup d k2 := by
  have hne : ¬ k = k2 := fun he => h he.symm
  induction d with
  | nil => simp [dictInsert, dictLookup, hne]
  | cons p rest ih =>
    obtain ⟨k0, v0⟩ := p
    by_cases h0 : k0 = k
    · subst h0
      simp [dictInsert, dictLookup, hne]
    · simp only [dictInsert, if_neg h0]
      by_cases h2 : k0 = k2 <;> simp [dictLookup, h2, ih]

theorem foldl_dictInsert_lookup {β : Type} (f : String → β)
    (qs : List String) :
    ∀ (d : List (String × β)) (q : String),
      (q ∈ qs ∨ dictLookup d q = some (f q)) →
      dictLookup (qs.foldl (fun acc q2 => dictInsert acc q2 (f q2)) d) q
        = some (f q) := by
  induction qs with
  | nil =>
    intro d q h
    simpa using h.resolve_left (by simp)
  | cons q0 qs ih =>
    intro d q h
    simp only [List.foldl_cons]
    apply ih
    by_cases hq : q = q0
    · subst hq
      by_cases hmem : q ∈ qs
      · exact Or.inl hmem
      · exact Or.inr (dictLookup_insert_self d q (f q))
    · rcases h with h | h
      · rcases List.mem_cons.mp h with h0 | h0
        · exact absurd h0 hq
        · exact Or.inl h0
      · exact Or.inr ((dictLookup_insert_other d q0 q (f q0) hq).trans h)

theorem mem_dictInsert {β : Type} (d : List (String × β)) (k : String)
    (v : β) : ∀ p ∈ dictInsert d k v, p = (k, v) ∨ p ∈ d := by
  induction d with
  | nil =>
    intro p hp
    simp only [dictInsert, List.mem_singleton] at hp
    exact Or.inl hp
  | cons p0 rest ih =>
    obtain ⟨k0, v0⟩ := p0
    intro p hp
    by_cases h0 : k0 = k
    · subst h0
      simp only [dictInsert, eq_self_iff_true, if_true, List.mem_cons] at hp
      rcases hp with hp | hp
      · exact Or.inl hp
      · exact Or.inr (List.mem_cons_of_mem _ hp)
    · simp only [dictInsert, if_neg h0, List.mem_cons] at hp
      rcases hp with hp | hp
      · exact Or.inr (hp ▸ List.mem_cons_self _ rest)
      · rcases ih p hp with h2 | h2
        · exact Or.inl h2
        · exact Or.inr (List.mem_cons_of_mem _ h2)

theorem foldl_dictInsert_keys {β : Type} (f : String → β) (qs : List String) :
    ∀ (d : List (String × β)), ∀ p ∈ qs.foldl
        (fun acc q2 => dictInsert acc q2 (f q2)) d,
      p.1 ∈ qs ∨ p ∈ d := by
  induction qs with
  | nil =>
    intro d p hp
    exact Or.inr hp
  | cons q0 qs ih =>
    intro d p hp
    simp only [List.foldl_cons] at hp
    rcases ih (dictInsert d q0 (f q0)) p hp with h | h
    · exact Or.inl (List.mem_cons_of_mem q0 h)
    · rcases mem_dictInsert d q0 (f q0) p h with h2 | h2
      · subst h2
        exact Or.inl (List.mem_cons_self q0 qs)
      · exact Or.inr h2

/-- C7: the Vector Index fails closed and never raises to the caller —
`search` returns `[]` when the store is uninitialized and when the backend
call raises (for either store type); `load` returns `false` with the state
unchanged when no persisted index exists; `add_documents` returns `false`
when the insertion backend raises. -/
theorem C7_vector_store_fail_closed :
    (∀ (st : VSState)
        (fS cS : Nat → String → Nat → Except String (List SearchHit))
        (q : String) (k : Nat), st.vector_store = none →
        VSsearch st fS cS q k = some []) ∧
    (∀ (st : VSState) (idx : Nat)
        (cS : Nat → String → Nat → Except String (List SearchHit))
        (e q : String) (k : Nat),
        st.store_type = "faiss" → st.vector_store = some idx →
        VSsearch st (fun _ _ _ => Except.error e) cS q k = some []) ∧
    (∀ (st : VSState) (idx : Nat)
        (fS : Nat → String → Nat → Except String (List SearchHit))
        (e q : String) (k : Nat),
        st.store_type = "chroma" → st.vector_store = some idx →
        VSsearch st fS (fun _ _ _ => Except.error e) q k = some []) ∧
    (∀ (st : VSState) (ll lc : Except String Nat),
        VSload st false false ll lc = (false, st)) ∧
    (∀ (st : VSState) (docs : List PDoc) (cA : Bool) (e : String)
        (addBatch : Nat → List PDoc → Except String Nat)
        (cFD : List PDoc → Except String Nat)
        (cAO : Nat → PDoc → Except String Nat)
        (cP : Nat → Except String Unit),
        docs ≠ [] → st.store_type = "faiss" → st.vector_store = none →
        (VSaddDocuments st docs true cA (fun _ => Except.error e) addBatch
            cFD cAO cP).1 = false) := by
  refine ⟨?_, ?_, ?_, ?_, ?_⟩
  · intro st fS cS q k h
    simp [VSsearch, h]
  · intro st idx cS e q k hty hvs
    simp [VSsearch, hty, hvs, Except.map]
  · intro st idx fS e q k hty hvs
    simp [VSsearch, hty, hvs, Except.map]
  · intro st ll lc
    simp [VSload, loadFaissIndex, loadChromaIndex]
  · intro st docs cA e addBatch cFD cAO cP hne hty hvs
    obtain ⟨d, rest, rfl⟩ := List.exists_cons_of_ne_nil hne
    simp [VSaddDocuments, hty, hvs, batches32, faissLoop]

/-- C7 witness: the fail-closed cases at concrete inputs. -/
theorem C7_vector_store_fail_closed_witness :
    VSsearch ⟨"faiss", none⟩ (fun _ _ _ => Except.ok [])
        (fun _ _ _ => Except.ok []) "q" 5 = some [] ∧
    VSsearch ⟨"faiss", some 0⟩ (fun _ _ _ => Except.error "down")
        (fun _ _ _ => Except.ok []) "q" 5 = some [] ∧
    VSsearch ⟨"chroma", some 0⟩ (fun _ _ _ => Except.ok [])
        (fun _ _ _ => Except.error "down") "q" 5 = some [] ∧
    (VSaddDocuments ⟨"faiss", none⟩ [pdocOf "d" "s"] true true
        (fun _ => Except.error "down") (fun idx _ => Except.ok idx)
        (fun _ => Except.ok 0) (fun idx _ => Except.ok idx)
        (fun _ => Except.ok ())).1 = false :=
  ⟨C7_vector_store_fail_closed.1 ⟨"faiss", none⟩ _ _ "q" 5 rfl,
   C7_vector_store_fail_closed.2.1 ⟨"faiss", some 0⟩ 0 _ "down" "q" 5 rfl rfl,
   C7_vector_store_fail_closed.2.2.1 ⟨"chroma", some 0⟩ 0 _ "down" "q" 5 rfl rfl,
   C7_vector_store_fail_closed.2.2.2.2 ⟨"faiss", none⟩ [pdocOf "d" "s"] true
      "down" _ _ _ _ (by decide) rfl rfl⟩

/-- C8: `search_multiple` maps every query of the list to exactly the result
of an independent `search(query, top_k)` call, and every key of the returned
mapping is one of the queries — no merging or fusion across queries. -/
theorem C8_search_multiple_spec (st : VSState)
    (fS cS : Nat → String → Nat → Except String (List SearchHit))
    (queries : List String) (top_k : Nat) :
    (∀ q ∈ queries,
        dictLookup (VSsearchMultiple st fS cS queries top_k) q
          = some (VSsearch st fS cS q top_k)) ∧
    (∀ p ∈ VSsearchMultiple st fS cS queries top_k, p.1 ∈ queries) := by
  constructor
  · intro q hq
    exact foldl_dictInsert_lookup (fun q2 => VSsearch st fS cS q2 top_k)
      queries [] q (Or.inl hq)
  · intro p hp
    rcases foldl_dictInsert_keys (fun q2 => VSsearch st fS cS q2 top_k)
        queries [] p hp with h | h
    · exact h
    · simp at h

/-- C8 witness: the per-query lookup equation and the key condition at a
concrete two-query instance. -/
theorem C8_search_multiple_spec_witness :
    dictLookup (VSsearchMultiple ⟨"faiss", none⟩ (fun _ _ _ => Except.ok [])
        (fun _ _ _ => Except.ok []) ["a", "b"] 5) "b"
      = some (VSsearch ⟨"faiss", none⟩ (fun _ _ _ => Except.ok [])
          (fun _ _ _ => Except.ok []) "b" 5) ∧
    ("a", VSsearch ⟨"faiss", none⟩ (fun _ _ _ => Except.ok [])
        (fun _ _ _ => Except.ok []) "a" 5).1 ∈ (["a", "b"] : List String) :=
  ⟨(C8_search_multiple_spec ⟨"faiss", none⟩ _ _ ["a", "b"] 5).1 "b" (by decide),
   (C8_search_multiple_spec ⟨"faiss", none⟩ (fun _ _ _ => Except.ok [])
      (fun _ _ _ => Except.ok []) ["a", "b"] 5).2 _ (by decide)⟩

/-- C10: `add_documents` called with an empty document list returns `False`
— reported as non-success rather than a trivially successful no-op — and
leaves the vector-store state unchanged. -/
theorem C10_add_documents_empty (st : VSState) (fA cA : Bool)
    (fromDocs : List PDoc → Except String Nat)
    (addBatch : Nat → List PDoc → Except String Nat)
    (chromaFromDocs : List PDoc → Except String Nat)
    (chromaAddOne : Nat → PDoc → Except String Nat)
    (chromaPersist : Nat → Except String Unit) :
    VSaddDocuments st [] fA cA fromDocs addBatch chromaFromDocs chromaAddOne
      chromaPersist = (false, st) := by
  simp [VSaddDocuments]

/-! ## Structured Extractor: `DocumentProcessor`
(src/agents/document_processor.py) -/

/-- An e-mail attachment: a dict holding a filename and raw bytes. -/
structure Attachment where
  filename : String
  data : List Nat
  deriving DecidableEq, Repr

/-- The exception that escapes `extract_info` to the caller. -/
inductive PyError where
  | attributeError (name : String)
  deriving DecidableEq, Repr

/-- The method names bound by `def` statements in the body of class
`DocumentProcessor` (document_processor.py:36-666).  The text-extraction
code at lines 130-212 has no `def` line of its own — it sits, orphaned, at
the tail of `_init_rag_components` — so `extract_text_from_attachments` is
not among the attributes of the class. -/
def documentProcessorMethods : List String :=
  ["__init__", "_init_local_model", "_init_rag_components",
   "extract_info", "_extract_with_llm", "_extract_simple",
   "_detect_document_type", "_find_date", "_find_amount",
   "_normalize_doc_type", "_clean_person_name", "_normalize_date",
   "_normalize_amount", "index_templates", "extract_info_with_rag",
   "_get_extraction_prompt", "_parse_llm_response"]

/-- Source: `DocumentProcessor._detect_document_type`
(document_processor.py:396-400). -/
def detectDocumentType (text : String) : String :=
  let t := pyLower text
  if strContains t "договор" then "Договор"
  else if strContains t "акт" then "Акт"
  else "Документ"

/-- Head-match for the fixed-width date pattern `\d{2}[./]\d{2}[./]\d{4}`
of `_find_date`; digits are ASCII, which covers the inputs seen here. -/
def dateMatchAt (cs : List Char) : Option (List Char) :=
  match cs with
  | d1 :: d2 :: s1 :: d3 :: d4 :: s2 :: y1 :: y2 :: y3 :: y4 :: _ =>
    if d1.isDigit && d2.isDigit && (s1 == '.' || s1 == '/')
        && d3.isDigit && d4.isDigit && (s2 == '.' || s2 == '/')
        && y1.isDigit && y2.isDigit && y3.isDigit && y4.isDigit then
      some [d1, d2, s1, d3, d4, s2, y1, y2, y3, y4]
    else none
  | _ => none

/-- Source: `re.search` leftmost scan for the date pattern. -/
def searchDate : List Char → Option (List Char)
  | [] => none
  | c :: cs =>
    match dateMatchAt (c :: cs) with
    | some m => some m
    | none => searchDate cs

/-- Source: `DocumentProcessor._find_date` (document_processor.py:402-404). -/
def findDate (text : String) : String :=
  match searchDate text.toList with
  | some m => String.mk m
  | none => "Не указан"

/-- The character class `[\d\s,]` of the amount pattern. -/
def isAmountBodyChar (c : Char) : Bool := c.isDigit || pyIsSpace c || c == ','

/-- Head-match for `\s*(руб|тенге)`: the greedy `\s*` run followed by one of
the currency literals (neither starts with whitespace, so no backtracking
into `\s*` is possible). -/
def amountTailAt : List Char → Option (List Char)
  | [] => none
  | c :: rest =>
    if pyIsSpace c then (amountTailAt rest).map (fun t => c :: t)
    else if matchesAt "руб".toList (c :: rest) then some "руб".toList
    else if matchesAt "тенге".toList (c :: rest) then some "тенге".toList
    else none

/-- Greedy-with-backtracking head-match for `[\d\s,]*\s*(руб|тенге)`: prefer
consuming another body character, falling back to matching the tail at the
current position — regex preference order, longest body first. -/
def amountBodyAt : List Char → Option (List Char)
  | [] => none
  | c :: rest =>
    if isAmountBodyChar c then
      match (amountBodyAt rest).map (fun t => c :: t) with
      | some t => some t
      | none => amountTailAt (c :: rest)
    else amountTailAt (c :: rest)

/-- Head-match for the full pattern `(\d[\d\s,]*)\s*(руб|тенге)`, returning
`group(0)`. -/
def amountMatchAt (cs : List Char) : Option (List Char) :=
  match cs with
  | [] => none
  | c :: rest =>
    if c.isDigit then (amountBodyAt rest).map (fun t => c :: t) else none

/-- Source: `re.search` leftmost scan for the amount pattern. -/
def searchAmount : List Char → Option (List Char)
  | [] => none
  | c :: cs =>
    match amountMatchAt (c :: cs) with
    | some m => some m
    | none => searchAmount cs

/-- Source: `DocumentProcessor._find_amount` (document_processor.py:406-408). -/
def findAmount (text : String) : String :=
  match searchAmount text.toList with
  | some m => String.mk m
  | none => "Не указана"

/-- Source: `DocumentProcessor._extract_simple` (document_processor.py:387-394):
the returned dict, keys in literal order.  It has no `brief_description`
key. -/
def extractSimple (text subject : String) : List (String × String) :=
  [("document_type", detectDocumentType text),
   ("description", subject),
   ("responsible_person", "Не удалось извлечь"),
   ("deadline", findDate text),
   ("amount", findAmount text)]

/-- Python `str.strip()`. -/
def pyStrip (s : String) : String :=
  String.mk (((s.toList.dropWhile pyIsSpace).reverse.dropWhile pyIsSpace).reverse)

/-- Python `s[-n:]`. -/
def pyTakeRight (s : String) (n : Nat) : String :=
  String.mk (s.toList.drop (s.toList.length - n))

/-- The body of `extract_info` after the text-extraction call
(document_processor.py:219-241): head+tail truncation of long attachment
text, fallback to the e-mail body (when longer than 500 characters) or a
subject+body template, then dispatch to `_extract_with_llm` (the oracle
`ewl`, used only when a model is configured) or `_extract_simple`. -/
def extractInfoBody (contract_text email_text email_subject : String)
    (llmConfigured : Bool) (ewl : String → String → List (String × String)) :
    List (String × String) :=
  let full_text :=
    if pyStrip contract_text ≠ "" then
      if 12000 < contract_text.length then
        String.mk (contract_text.toList.take 8000)
          ++ "\n\n...[ПРОПУСК СТАНДАРТНЫХ УСЛОВИЙ]...\n\n"
          ++ pyTakeRight contract_text 4000
      else contract_text
    else
      if email_text ≠ "" ∧ 500 < email_text.length then email_text
      else "ТЕМА: " ++ email_subject ++ "\nТЕКСТ ПИСЬМА:\n" ++ email_text
  if llmConfigured then ewl full_text email_subject
  else extractSimple full_text email_subject

/-- Source: `DocumentProcessor.extract_info` (document_processor.py:214-241).  Its
first statement evaluates `self.extract_text_from_attachments(attachments)`
(line 217), so the attribute is resolved before anything else; a name not
bound by the class raises `AttributeError`.  `etfa` is an oracle standing
for the would-be method and `ewl` for `_extract_with_llm`; both are
unreachable because the name is absent from `documentProcessorMethods`. -/
def extractInfo (etfa : List Attachment → String)
    (ewl : String → String → List (String × String)) (llmConfigured : Bool)
    (email_text email_subject : String) (attachments : List Attachment) :
    Except PyError (List (String × String)) :=
  if "extract_text_from_attachments" ∈ documentProcessorMethods then
    Except.ok (extractInfoBody (etfa attachments) email_text email_subject
      llmConfigured ewl)
  else
    Except.error (PyError.attributeError "extract_text_from_attachments")

/-- C1: contrary to the claim, `extract_info` never returns a record — every
call, for every input and whether or not a model is configured, raises
`AttributeError`: the `def` line of `extract_text_from_attachments` is
missing from the class (its body is orphaned at the end of
`_init_rag_components`), and the first statement of `extract_info` resolves that
attribute.  Additionally, the intended degraded path `_extract_simple`
returns a record without the `brief_description` field, so even it would
not satisfy "every field present". -/
theorem C1_extract_info_raises :
    (∀ (etfa : List Attachment → String)
        (ewl : String → String → List (String × String))
        (llmConfigured : Bool) (email_text email_subject : String)
        (attachments : List Attachment),
        extractInfo etfa ewl llmConfigured email_text email_subject attachments
          = Except.error
              (PyError.attributeError "extract_text_from_attachments")) ∧
    extractInfo (fun _ => "") (fun _ _ => []) false "" "" []
      = Except.error
          (PyError.attributeError "extract_text_from_attachments") ∧
    (extractSimple "" "").map Prod.fst
      = ["document_type", "description", "responsible_person", "deadline",
         "amount"] ∧
    "brief_description" ∉ (extractSimple "" "").map Prod.fst ∧
    extractSimple "" ""
      = [("document_type", "Документ"), ("description", ""),
         ("responsible_person", "Не удалось извлечь"),
         ("deadline", "Не указан"), ("amount", "Не указана")] := by
  have hmem : "extract_text_from_attachments" ∉ documentProcessorMethods := by
    decide
  refine ⟨fun etfa ewl llm et es atts => ?_, ?_, by decide, by decide, by decide⟩
  · unfold extractInfo
    rw [if_neg hmem]
  · unfold extractInfo
    rw [if_neg hmem]

end DocAgent
